import Mathlib

/-!
Verification of the StartupDataDeck data pipeline.

The repository holds two Streamlit dashboards, `app.py` and `vc_dashboard.py`,
whose reusable core is a pandas load / clean / filter / aggregate pipeline.
This file gives a shallow embedding of that core and settles the frozen
claims about it.

Modelling conventions:
- A pandas object-column cell is a `Cell`: missing (NaN/NaT), a string, a
  number, or a list of strings (the shape `category_list` takes after the
  split step in `app.py`).  Machine floats are modelled as `ℚ`; claims about
  exact floating-point rounding are outside the model.
- Per-cell string operations (`.str.strip`, `.str.lower`, `.str.split`,
  `pd.to_numeric`) are translated element by element; a `.str` operation on a
  non-string cell yields NaN, exactly as pandas does on an object column.
- Column-level dtype inference of `pd.read_csv` is modelled for the columns
  on which the code performs dtype-sensitive operations: a column whose
  non-empty cells all parse as numeric literals is read as a numeric column,
  and a `.str` accessor on a numeric column raises.
- Exceptions are modelled with `Except`; the broad `except Exception` wrapper
  of `app.py` is the function `App.load_data` below.
-/

/-- One pandas object-column cell: missing (NaN/NaT), a string, a numeric
value, or a list of strings. -/
inductive Cell where
  | null
  | str (s : String)
  | num (q : ℚ)
  | list (l : List String)
deriving DecidableEq, Repr

deriving instance DecidableEq for Except

namespace Cell

def isNull : Cell → Bool
  | .null => true
  | _ => false

def isStr : Cell → Bool
  | .str _ => true
  | _ => false

end Cell

/-! ## Python string primitives

`str.strip`, `str.lower` and `str.split` are embedded as executable functions
over the character list of a string.  Lowercasing is ASCII (the data set is
ASCII); whitespace is the usual Python whitespace set. -/

/-- The whitespace characters removed by Python `str.strip()`, by code
point: space, tab, newline, carriage return, vertical tab, form feed. -/
def isSpace (c : Char) : Bool :=
  c.toNat = 32 || c.toNat = 9 || c.toNat = 10 || c.toNat = 13 ||
  c.toNat = 11 || c.toNat = 12

/-- ASCII lowercasing of one character, as Python `str.lower()` acts on the
ASCII range (the code points 65 to 90 are the letters A to Z). -/
def lowerChar (c : Char) : Char :=
  if 65 ≤ c.toNat && c.toNat ≤ 90 then Char.ofNat (c.toNat + 32) else c

/-- Python `str.strip()` on a character list: drop whitespace from both
ends. -/
def trimChars (l : List Char) : List Char :=
  ((l.dropWhile isSpace).reverse.dropWhile isSpace).reverse

/-- Python `str.strip()`. -/
def pyStrip (s : String) : String := String.mk (trimChars s.data)

/-- Python `str.lower()`. -/
def pyLower (s : String) : String := String.mk (s.data.map lowerChar)

/-- Python `str.split(sep)` for a one-character separator, on character
lists: the accumulator holds the current token reversed. -/
def splitCharsAux (sep : Char) : List Char → List Char → List String
  | [], acc => [String.mk acc.reverse]
  | c :: rest, acc =>
    if c = sep then String.mk acc.reverse :: splitCharsAux sep rest []
    else splitCharsAux sep rest (c :: acc)

/-- Python `s.split(sep)`: note `"".split(sep) = [""]`. -/
def pySplit (s : String) (sep : Char) : List String := splitCharsAux sep s.data []

/-- A character list with no leading and no trailing whitespace. -/
def NoEdgeSpace (l : List Char) : Prop :=
  (∀ x, l.head? = some x → isSpace x = false) ∧
  (∀ x, l.reverse.head? = some x → isSpace x = false)

/-! ## Numeric literals

`pd.to_numeric` in coerce mode and the numeric-column inference of
`pd.read_csv` are embedded as a decimal-literal parser: optional sign,
integer digits, optional fractional digits, with surrounding whitespace
tolerated.  (Scientific notation and leading-dot forms are not modelled;
no claim depends on them.) -/

def isDigitChar (c : Char) : Bool := 48 ≤ c.toNat && c.toNat ≤ 57

/-- The decimal digit character for a digit value below ten. -/
def digitChar (d : Nat) : Char :=
  match d with
  | 0 => '0' | 1 => '1' | 2 => '2' | 3 => '3' | 4 => '4'
  | 5 => '5' | 6 => '6' | 7 => '7' | 8 => '8' | 9 => '9'
  | _ => '0'

/-- Decimal digits, most significant first, with structural fuel (the first
argument bounds the number of digits; the value shrinks tenfold per step,
so fuel equal to the number itself is always enough). -/
def natDigitsAux : Nat → Nat → List Char
  | 0, n => [digitChar n]
  | fuel + 1, n =>
    if n < 10 then [digitChar n]
    else natDigitsAux fuel (n / 10) ++ [digitChar (n % 10)]

/-- Decimal digits of a natural number, most significant first. -/
def natDigits (n : Nat) : List Char := natDigitsAux n n

/-- Value of a digit string. -/
def natOfDigits (l : List Char) : Nat := l.foldl (fun a c => 10 * a + (c.toNat - 48)) 0

def applySign (neg : Bool) (q : ℚ) : ℚ := if neg then -q else q

/-- Parse a decimal numeric literal, as `pd.to_numeric` in coerce mode
accepts one (`none` models the coerced NaN). -/
def parseNumChars (l : List Char) : Option ℚ :=
  let t0 := trimChars l
  let p : Bool × List Char :=
    match t0 with
    | '-' :: r => (true, r)
    | '+' :: r => (false, r)
    | _ => (false, t0)
  let ds := p.2.takeWhile isDigitChar
  let rest := p.2.dropWhile isDigitChar
  if ds = [] then none
  else
    match rest with
    | [] => some (applySign p.1 (natOfDigits ds))
    | '.' :: fs =>
      if fs.all isDigitChar then
        some (applySign p.1 ((natOfDigits ds : ℚ) + (natOfDigits fs : ℚ) / (10 : ℚ) ^ fs.length))
      else none
    | _ => none

def parseNum (s : String) : Option ℚ := parseNumChars s.data

/-- A cell content that `pd.read_csv` would type as numeric. -/
def isNumericLiteral (s : String) : Bool := (parseNumChars s.data).isSome

/-- Column-level dtype inference of `pd.read_csv`: a non-empty column whose
present cells are all numeric literals is read with a numeric dtype (a
column of zero rows stays object-typed). -/
def colIsNumeric (col : List (Option String)) : Bool :=
  !col.isEmpty && col.all (fun c =>
    match c with
    | none => true
    | some s => isNumericLiteral s)

/-- Rendering of a whole-valued float by `DataFrame.to_csv` (for example
`1000000.0`).  Funding totals are whole dollar amounts; for a rational
with a non-trivial denominator this renders only the integer numerator,
which no claim exercises. -/
def renderNum (q : ℚ) : String :=
  String.mk ((if q.num < 0 then ['-'] else []) ++ natDigits q.num.natAbs ++ ['.', '0'])

/-! ## Sorting and aggregation

`groupby(sort=True)`, `sort_values` and `value_counts` order their output;
the stable insertion sort below models them (pandas sorts are stable on
identical input, which is all the claims use). -/

def insertBy {α : Type} (le : α → α → Bool) (a : α) : List α → List α
  | [] => [a]
  | b :: t => if le a b then a :: b :: t else b :: insertBy le a t

def sortBy {α : Type} (le : α → α → Bool) : List α → List α
  | [] => []
  | a :: t => insertBy le a (sortBy le t)

/-- String content of a cell, `none` for anything that is not a string. -/
def cellStr : Cell → Option String
  | .str s => some s
  | _ => none

/-- Numeric content of a cell, `none` for anything that is not a number. -/
def cellNum : Cell → Option ℚ
  | .num q => some q
  | _ => none

/-- Sum of the numeric cells of a list, skipping NaN and non-numeric cells,
as pandas `Series.sum()` does. -/
def vsum (cells : List Cell) : ℚ := (cells.filterMap cellNum).sum

/-- The distinct non-null keys of a column, in ascending order: pandas
`groupby` drops rows whose key is NaN and sorts the group keys.  The
grouping columns used by the dashboards are string columns. -/
def groupKeys {α : Type} (rows : List α) (key : α → Cell) : List String :=
  sortBy (fun a b => a ≤ b) (rows.filterMap fun r => cellStr (key r)).dedup

/-- Total of the value column over the rows of one group. -/
def fiberSum {α : Type} (rows : List α) (key val : α → Cell) (k : String) : ℚ :=
  vsum ((rows.filter fun r => key r == Cell.str k).map val)

/-- `df.groupby(key)[val].sum()`. -/
def groupSum {α : Type} (rows : List α) (key val : α → Cell) : List (String × ℚ) :=
  (groupKeys rows key).map fun k => (k, fiberSum rows key val k)

/-- Count of non-null values of the value column over one group. -/
def fiberCount {α : Type} (rows : List α) (key val : α → Cell) (k : String) : ℕ :=
  (((rows.filter fun r => key r == Cell.str k).map val).filterMap cellNum).length

/-- `df.groupby(key)[val].mean()` (sum of the non-null group values over
their count). -/
def groupMean {α : Type} (rows : List α) (key val : α → Cell) : List (String × ℚ) :=
  (groupKeys rows key).map fun k =>
    (k, fiberSum rows key val k / (fiberCount rows key val k : ℚ))

/-- `df[key].value_counts()`: occurrence counts of the non-null key values,
sorted by descending count. -/
def valueCounts {α : Type} (rows : List α) (key : α → Cell) : List (String × ℕ) :=
  sortBy (fun a b => b.2 ≤ a.2)
    ((groupKeys rows key).map fun k =>
      (k, (rows.filter fun r => key r == Cell.str k).length))

/-- `series.sort_values(ascending=False).head(n)`: top n entries by
descending value. -/
def topN (n : ℕ) (l : List (String × ℚ)) : List (String × ℚ) :=
  (sortBy (fun a b => b.2 ≤ a.2) l).take n

/-! ## Per-cell pandas operations shared by both dashboards -/

/-- A pandas `.str` method applied over an object column: it maps string
cells and turns every other cell into NaN. -/
def cellStrMap (f : String → String) : Cell → Cell
  | .str s => .str (f s)
  | _ => .null

/-- `Series.fillna(v)`. -/
def fillna (v : Cell) : Cell → Cell
  | .null => v
  | c => c

/-- Removing every occurrence of one character from a string (the literal
`str.replace` calls with an empty replacement in vc_dashboard.py). -/
def removeChar (ch : Char) (s : String) : String :=
  String.mk (s.data.filter fun c => !(c = ch))

/-- The dollar-and-comma regex replacement of the funding column in app.py:
`Series.replace` rewrites string cells and leaves every other cell
unchanged. -/
def stripDollarComma : Cell → Cell
  | .str s => .str (String.mk (s.data.filter fun c => !(c = '$' || c = ',')))
  | c => c

/-- `pd.to_numeric` in coerce mode per cell: strings are parsed, numbers
pass through, anything unparseable coerces to NaN. -/
def toNumeric : Cell → Cell
  | .str s =>
    match parseNum s with
    | some q => .num q
    | none => .null
  | .num q => .num q
  | _ => .null

/-- Python `str()` of a cell value, as `astype(str)` renders each element
(the quote characters of the list rendering are elided; no claim inspects
it). -/
def astypeStr : Cell → Cell
  | .str s => .str s
  | .num q => .str (renderNum q)
  | .list l => .str ("[" ++ String.intercalate ", " l ++ "]")
  | .null => .str "nan"

/-- `Series.isin(values)` per cell for a list of strings: NaN and
non-string cells match no value. -/
def cellIsin (c : Cell) (vs : List String) : Bool :=
  match c with
  | Cell.str s => vs.contains s
  | _ => false

/-- `Series.between(lo, hi)` per cell: inclusive on both bounds, false on
NaN. -/
def cellBetween (c : Cell) (lo hi : ℚ) : Bool :=
  match c with
  | Cell.num q => lo ≤ q && q ≤ hi
  | _ => false

namespace App

/-- One row of the `app.py` dataframe, over the columns the dashboard
touches. -/
structure CRow where
  name : Cell
  funding_total_usd : Cell
  market : Cell
  category_list : Cell
  country_code : Cell
  status : Cell
  region : Cell
deriving DecidableEq, Repr

/-- The category step of app.py, per cell:
fillna with the empty string, split on the pipe character, then the
comprehension keeping the stripped and lowered form of each truthy token.
On a non-string cell (for example an already-split list) `.str.split`
yields NaN, and iterating NaN in the list comprehension raises a
TypeError, modelled as the error case. -/
def catClean (c : Cell) : Except Unit Cell :=
  match fillna (Cell.str "") c with
  | Cell.str s =>
    Except.ok (Cell.list ((pySplit s '|').filterMap fun i =>
      if i = "" then none else some (pyLower (pyStrip i))))
  | _ => Except.error ()

/-- One row through the cleaning block of app.py `load_data` lines 40 to 49:
drop rows with null name, funding or market; strip currency characters and
coerce funding, keeping only positive amounts; strip and lowercase market;
split the category list; sentinel-fill country and status.  `ok none` is a
dropped row. -/
def cleanRow (r : CRow) : Except Unit (Option CRow) :=
  if r.name.isNull || r.funding_total_usd.isNull || r.market.isNull then
    Except.ok none
  else
    match toNumeric (stripDollarComma r.funding_total_usd) with
    | Cell.num q =>
      if 0 < q then
        match catClean r.category_list with
        | Except.error e => Except.error e
        | Except.ok cat =>
          Except.ok (some
            { name := r.name
              funding_total_usd := Cell.num q
              market := cellStrMap pyLower (cellStrMap pyStrip r.market)
              category_list := cat
              country_code :=
                cellStrMap pyStrip (astypeStr (fillna (Cell.str "Unknown") r.country_code))
              status :=
                cellStrMap pyStrip (astypeStr (fillna (Cell.str "Unknown") r.status))
              region := r.region })
      else Except.ok none
    | _ => Except.ok none

/-- The cleaning block over the whole table; a TypeError raised on any row
aborts the load, as the column-wise pandas operations do. -/
def normalizeApp : List CRow → Except Unit (List CRow)
  | [] => Except.ok []
  | r :: rs =>
    match cleanRow r with
    | Except.error e => Except.error e
    | Except.ok h =>
      match normalizeApp rs with
      | Except.error e => Except.error e
      | Except.ok t =>
        Except.ok
          (match h with
           | some r2 => r2 :: t
           | none => t)

/-- One raw CSV row over the modelled columns: a cell is either absent
(NaN) or its text. -/
structure RawRow where
  name : Option String
  funding_total_usd : Option String
  market : Option String
  category_list : Option String
  country_code : Option String
  status : Option String
  region : Option String
deriving DecidableEq, Repr

/-- A parsed CSV file: the header names as read (before stripping) and the
data rows. -/
structure RawTable where
  header : List String
  rows : List RawRow
deriving DecidableEq, Repr

/-- Reading one cell of a column with known inferred dtype. -/
def readCell (numeric : Bool) (c : Option String) : Cell :=
  match c with
  | none => Cell.null
  | some s =>
    if numeric then
      match parseNum s with
      | some q => Cell.num q
      | none => Cell.null
    else Cell.str s

/-- `pd.read_csv`: every modelled column is read under its inferred
dtype. -/
def readCsv (t : RawTable) : List CRow :=
  let nName := colIsNumeric (t.rows.map (·.name))
  let nFund := colIsNumeric (t.rows.map (·.funding_total_usd))
  let nMarket := colIsNumeric (t.rows.map (·.market))
  let nCat := colIsNumeric (t.rows.map (·.category_list))
  let nCountry := colIsNumeric (t.rows.map (·.country_code))
  let nStatus := colIsNumeric (t.rows.map (·.status))
  let nRegion := colIsNumeric (t.rows.map (·.region))
  t.rows.map fun r =>
    { name := readCell nName r.name
      funding_total_usd := readCell nFund r.funding_total_usd
      market := readCell nMarket r.market
      category_list := readCell nCat r.category_list
      country_code := readCell nCountry r.country_code
      status := readCell nStatus r.status
      region := readCell nRegion r.region }

def requiredColumns : List String :=
  ["name", "funding_total_usd", "market", "country_code", "status"]

inductive LoadErr where
  | fileNotFound
  | decodeError
  | schemaError (missing : List String)
  | typeError
deriving DecidableEq, Repr

/-- The body run on a successfully decoded file: strip the column names,
check the required columns (ValueError listing the missing ones), then
clean; a TypeError from cleaning propagates. -/
def processTable (t : RawTable) : Except LoadErr (List CRow) :=
  let hdr := t.header.map pyStrip
  let missing := requiredColumns.filter fun c => !(hdr.contains c)
  if missing = [] then
    match normalizeApp (readCsv t) with
    | Except.ok rows => Except.ok rows
    | Except.error _ => Except.error LoadErr.typeError
  else Except.error (LoadErr.schemaError missing)

/-- The input environment of `load_data`: whether `investments_VC.csv`
exists, and the outcome of each `pd.read_csv` attempt.  `none` models the
UnicodeDecodeError of a strict-encoding read, and any raising of the lossy
fallback read. -/
structure LoadEnv where
  fileExists : Bool
  readUtf8 : Option RawTable
  readLatin1 : Option RawTable
  readIso : Option RawTable
  readLossy : Option RawTable
deriving DecidableEq, Repr

/-- The encoding loop over utf-8, latin1 and iso-8859-1: the first
read that does not raise a UnicodeDecodeError wins; later encodings are
never tried. -/
def tryEncodings (env : LoadEnv) : Option RawTable :=
  env.readUtf8 <|> env.readLatin1 <|> env.readIso

/-- `load_data` of app.py before its `except Exception` wrapper: file
check, encoding loop, lossy fallback. -/
def loadInner (env : LoadEnv) : Except LoadErr (List CRow) :=
  if env.fileExists then
    match tryEncodings env with
    | some t => processTable t
    | none =>
      match env.readLossy with
      | some t => processTable t
      | none => Except.error LoadErr.decodeError
  else Except.error LoadErr.fileNotFound

/-- `load_data` of app.py: the `except Exception` wrapper surfaces the
error message through `st.error` and returns an empty dataframe. -/
def load_data (env : LoadEnv) : Option LoadErr × List CRow :=
  match loadInner env with
  | Except.ok rows => (none, rows)
  | Except.error e => (some e, [])

/-- The sidebar criteria of app.py; every dimension is always applied. -/
structure Criteria where
  markets : List String
  countries : List String
  fundLo : ℚ
  fundHi : ℚ
  statuses : List String
deriving DecidableEq, Repr

/-- The boolean mask of app.py lines 108 to 113. -/
def rowPred (c : Criteria) (r : CRow) : Bool :=
  cellIsin r.market c.markets && cellIsin r.country_code c.countries &&
  cellBetween r.funding_total_usd c.fundLo c.fundHi && cellIsin r.status c.statuses

/-- `filtered_df` of app.py. -/
def filtered_df (df : List CRow) (c : Criteria) : List CRow := df.filter (rowPred c)

/-- Insight 4 of app.py: funding totals grouped by region, sorted
descending, head(10). -/
def region_funding (df : List CRow) : List (String × ℚ) :=
  topN 10 (groupSum df (fun r => r.region) (fun r => r.funding_total_usd))

/-- Insight 1 of app.py: top ten markets by summed funding. -/
def market_funding (df : List CRow) : List (String × ℚ) :=
  topN 10 (groupSum df (fun r => r.market) (fun r => r.funding_total_usd))

/-- Insight 3 of app.py: funding summed by status. -/
def status_funding (df : List CRow) : List (String × ℚ) :=
  groupSum df (fun r => r.status) (fun r => r.funding_total_usd)

/-- Insight 2 of app.py: `value_counts().head(10)` of the country codes. -/
def country_counts (df : List CRow) : List (String × ℕ) :=
  (valueCounts df (fun r => r.country_code)).take 10

/-- Insight 7 of app.py: top ten markets by mean funding. -/
def avg_market_funding (df : List CRow) : List (String × ℚ) :=
  (sortBy (fun a b => b.2 ≤ a.2)
    (groupMean df (fun r => r.market) (fun r => r.funding_total_usd))).take 10

end App

namespace Vc

/-- One raw CSV row over the columns vc_dashboard.py touches; the per-round
amount columns are kept positionally in the order of `roundTypes`. -/
structure RawRow where
  name : Option String
  market : Option String
  funding_total_usd : Option String
  country_code : Option String
  status : Option String
  founded_at : Option String
  rounds : List (Option String)
deriving DecidableEq, Repr

/-- One row of the loaded vc_dashboard.py dataframe.  The two auxiliary
funding-date columns are untouched by every claim and are not modelled. -/
structure VcRow where
  name : Cell
  market : Cell
  funding_total_usd : Cell
  country_code : Cell
  status : Cell
  founded_year : Cell
  rounds : List Cell
deriving DecidableEq, Repr

/-- Year extraction of `pd.to_datetime` in coerce mode plus `dt.year` for
ISO-style date text: the four leading digits of the trimmed value;
anything else coerces to NaT (the epoch reading of an all-numeric column
is not modelled; no claim exercises it). -/
def parseYear (s : String) : Option ℤ :=
  let t := trimChars s.data
  let ds := t.take 4
  if ds.length = 4 && ds.all isDigitChar then some (natOfDigits ds : ℤ) else none

/-- The AttributeError message of a `.str` accessor on a numeric column. -/
def strAccessorError : String :=
  "AttributeError: Can only use .str accessor with string values"

/-- `load_data` of vc_dashboard.py lines 10 to 28.  The funding column is
cleaned with `.str` methods and the market column with `.str.strip()`;
either raises an AttributeError when `pd.read_csv` inferred a numeric
dtype for it.  No row is dropped and no sentinel is filled. -/
def load_data (raw : List RawRow) : Except String (List VcRow) :=
  if colIsNumeric (raw.map fun r => r.funding_total_usd) then
    Except.error strAccessorError
  else if colIsNumeric (raw.map fun r => r.market) then
    Except.error strAccessorError
  else
    let nName := colIsNumeric (raw.map fun r => r.name)
    let nCountry := colIsNumeric (raw.map fun r => r.country_code)
    let nStatus := colIsNumeric (raw.map fun r => r.status)
    Except.ok (raw.map fun r =>
      { name := App.readCell nName r.name
        market := cellStrMap pyStrip (App.readCell false r.market)
        funding_total_usd :=
          toNumeric (cellStrMap pyStrip (cellStrMap (removeChar '"')
            (cellStrMap (removeChar ',') (App.readCell false r.funding_total_usd))))
        country_code := App.readCell nCountry r.country_code
        status := App.readCell nStatus r.status
        founded_year :=
          match r.founded_at with
          | none => Cell.null
          | some s =>
            match parseYear s with
            | some y => Cell.num (y : ℚ)
            | none => Cell.null
        rounds := r.rounds.map (App.readCell false) })

/-- The sidebar criteria of vc_dashboard.py: the three selectboxes carry an
explicit sentinel value All (modelled as `none`); the founded-year
slider is always present. -/
structure Criteria where
  market : Option String
  status : Option String
  country : Option String
  yearLo : ℤ
  yearHi : ℤ
deriving DecidableEq, Repr

/-- The founded-year range mask per cell: inclusive bounds, false on NaN
(pandas comparisons with NaN are false). -/
def yearBetween (c : Cell) (lo hi : ℤ) : Bool :=
  match c with
  | Cell.num q => (lo : ℚ) ≤ q && q ≤ (hi : ℚ)
  | _ => false

/-- The mask of one selectbox: the sentinel All applies no filter, else an
equality comparison (false on NaN). -/
def matchOpt (sel : Option String) (c : Cell) : Bool :=
  match sel with
  | none => true
  | some v => c == Cell.str v

/-- The conjunction of every vc_dashboard.py criterion on one row. -/
def rowPred (c : Criteria) (r : VcRow) : Bool :=
  matchOpt c.market r.market && matchOpt c.status r.status &&
  matchOpt c.country r.country_code &&
  yearBetween r.founded_year c.yearLo c.yearHi

/-- `filtered_df` of vc_dashboard.py lines 63 to 73: three conditional
equality filters, then the always-applied founded-year range filter. -/
def filtered_df (df : List VcRow) (c : Criteria) : List VcRow :=
  let d1 : List VcRow :=
    match c.market with
    | some m => df.filter fun r => r.market == Cell.str m
    | none => df
  let d2 : List VcRow :=
    match c.status with
    | some s => d1.filter fun r => r.status == Cell.str s
    | none => d1
  let d3 : List VcRow :=
    match c.country with
    | some k => d2.filter fun r => r.country_code == Cell.str k
    | none => d2
  d3.filter fun r => yearBetween r.founded_year c.yearLo c.yearHi

/-- Top markets chart: funding totals grouped by market, sorted
descending, head(10). -/
def market_funding (df : List VcRow) : List (String × ℚ) :=
  topN 10 (groupSum df (fun r => r.market) (fun r => r.funding_total_usd))

/-- Top countries chart of vc_dashboard.py. -/
def country_funding (df : List VcRow) : List (String × ℚ) :=
  topN 10 (groupSum df (fun r => r.country_code) (fun r => r.funding_total_usd))

/-- The per-round financing columns selected at lines 154 to 156. -/
def roundTypes : List String :=
  ["seed", "venture", "equity_crowdfunding", "undisclosed", "convertible_note",
   "debt_financing", "angel", "grant", "private_equity", "post_ipo_equity"]

/-- Column sum of the round column at one position. -/
def roundColSum (df : List VcRow) (i : ℕ) : ℚ :=
  vsum (df.map fun r => r.rounds.getD i Cell.null)

/-- `filtered_df[round_types].sum().sort_values(ascending=False)`: one
total per round-type column, in descending order; a zero-row frame still
yields one entry per column. -/
def round_funding (df : List VcRow) : List (String × ℚ) :=
  sortBy (fun a b => b.2 ≤ a.2)
    (roundTypes.enum.map fun p => (p.2, roundColSum df p.1))

/-- Serialization of one cell by `DataFrame.to_csv`: NaN becomes an empty
field, a number renders as a float literal. -/
def exportCell : Cell → Option String
  | Cell.null => none
  | Cell.str s => some s
  | Cell.num q => some (renderNum q)
  | Cell.list l => some ("[" ++ String.intercalate ", " l ++ "]")

/-- The `to_csv` download of the filtered dataframe, as the raw rows a
re-read would parse.  The datetime serialization of `founded_at` is not
modelled (a reload fails at the funding column before reading dates). -/
def exportCsv (df : List VcRow) : List RawRow :=
  df.map fun r =>
    { name := exportCell r.name
      market := exportCell r.market
      funding_total_usd := exportCell r.funding_total_usd
      country_code := exportCell r.country_code
      status := exportCell r.status
      founded_at := none
      rounds := r.rounds.map exportCell }

end Vc

/-- A vc_dashboard.py row whose founded_at did not parse: its founded_year
is NaN. -/
def vcNullYearRow : Vc.VcRow :=
  { name := Cell.str "Acme"
    market := Cell.str "software"
    funding_total_usd := Cell.num 100
    country_code := Cell.str "USA"
    status := Cell.str "operating"
    founded_year := Cell.null
    rounds := [] }

/-- An app.py row with a null region but positive funding. -/
def appNullRegionRow : App.CRow :=
  { name := Cell.str "Acme"
    funding_total_usd := Cell.num 5
    market := Cell.str "software"
    category_list := Cell.list []
    country_code := Cell.str "USA"
    status := Cell.str "operating"
    region := Cell.null }

/-- The raw category cell `"a|b"` of this row is a string; after cleaning
it is the list `[a, b]`. -/
def c4RawRow : App.CRow :=
  { name := Cell.str "Acme"
    funding_total_usd := Cell.str "100"
    market := Cell.str "Biotech"
    category_list := Cell.str "a|b"
    country_code := Cell.str "USA"
    status := Cell.str "operating"
    region := Cell.str "SF Bay Area" }

def c4CleanRow : App.CRow :=
  { name := Cell.str "Acme"
    funding_total_usd := Cell.num 100
    market := Cell.str "biotech"
    category_list := Cell.list ["a", "b"]
    country_code := Cell.str "USA"
    status := Cell.str "operating"
    region := Cell.str "SF Bay Area" }

/-! ## The normalization invariant (claim C2) -/

/-- A strictly positive numeric cell. -/
def fundingPos : Cell → Bool
  | Cell.num q => decide (0 < q)
  | _ => false

namespace App

/-- The after-normalization invariant stated by the spec, on one record:
non-null name, positive numeric funding, and string-valued market,
country_code and status. -/
def goodRecord (r : CRow) : Bool :=
  !r.name.isNull && fundingPos r.funding_total_usd && r.market.isStr &&
  r.country_code.isStr && r.status.isStr

end App

/-- A raw vc_dashboard.py row whose market cell is empty. -/
def c2VcRawA : Vc.RawRow :=
  { name := some "Alpha"
    market := none
    funding_total_usd := some "1,000"
    country_code := some "USA"
    status := some "operating"
    founded_at := none
    rounds := [] }

/-- A second raw row keeping the market column object-typed. -/
def c2VcRawB : Vc.RawRow :=
  { name := some "Beta"
    market := some " Software "
    funding_total_usd := some "2,000"
    country_code := some "USA"
    status := some "operating"
    founded_at := none
    rounds := [] }

def c2VcOutA : Vc.VcRow :=
  { name := Cell.str "Alpha"
    market := Cell.null
    funding_total_usd := Cell.num 1000
    country_code := Cell.str "USA"
    status := Cell.str "operating"
    founded_year := Cell.null
    rounds := [] }

def c2VcOutB : Vc.VcRow :=
  { name := Cell.str "Beta"
    market := Cell.str "Software"
    funding_total_usd := Cell.num 2000
    country_code := Cell.str "USA"
    status := Cell.str "operating"
    founded_year := Cell.null
    rounds := [] }

/-- The concrete raw table of the C2 witness: the scenario row of the
spec. -/
def c2RawTable : App.RawTable :=
  { header := ["name", "funding_total_usd", "market", "category_list",
               "country_code", "status", "region"]
    rows := [{ name := some "Acme"
               funding_total_usd := some "$1,000,000"
               market := some " Biotech "
               category_list := some "Biotech|Health"
               country_code := some "USA"
               status := some "operating"
               region := some "SF Bay Area" }] }

def c2Env : App.LoadEnv :=
  { fileExists := true
    readUtf8 := some c2RawTable
    readLatin1 := none
    readIso := none
    readLossy := none }

def c2OutRow : App.CRow :=
  { name := Cell.str "Acme"
    funding_total_usd := Cell.num 1000000
    market := Cell.str "biotech"
    category_list := Cell.list ["biotech", "health"]
    country_code := Cell.str "USA"
    status := Cell.str "operating"
    region := Cell.str "SF Bay Area" }

/-- A numeric cell. -/
def Cell.isNum : Cell → Bool
  | .num _ => true
  | _ => false

/-- The cleaned one-row dataset used for the C7 counterexample and
witness. -/
def c7Row : Vc.VcRow :=
  { name := Cell.str "Acme"
    market := Cell.str "software"
    funding_total_usd := Cell.num 1000000
    country_code := Cell.str "USA"
    status := Cell.str "operating"
    founded_year := Cell.num 2007
    rounds := [] }

/-! ## Lemmas and claims -/
theorem toNat_ofNat_char (n : Nat) (h : n < 55000) : (Char.ofNat n).toNat = n := by
  have hv : n.isValidChar := Or.inl (by omega)
  simp [Char.ofNat, hv, Char.ofNatAux, Char.toNat, UInt32.toNat, UInt32.ofNatCore]

theorem toNat_lowerChar_of_upper (c : Char) (h : 65 ≤ c.toNat ∧ c.toNat ≤ 90) :
    (lowerChar c).toNat = c.toNat + 32 := by
  unfold lowerChar
  rw [if_pos (by simp [h.1, h.2])]
  exact toNat_ofNat_char _ (by omega)

theorem lowerChar_eq_self (c : Char) (h : ¬(65 ≤ c.toNat ∧ c.toNat ≤ 90)) :
    lowerChar c = c := by
  unfold lowerChar
  rw [if_neg (by simp; omega)]

theorem lowerChar_lowerChar (c : Char) : lowerChar (lowerChar c) = lowerChar c := by
  by_cases h : 65 ≤ c.toNat ∧ c.toNat ≤ 90
  · have ht := toNat_lowerChar_of_upper c h
    apply lowerChar_eq_self
    rw [ht]
    omega
  · rw [lowerChar_eq_self c h]
    exact lowerChar_eq_self c h

theorem isSpace_lowerChar (c : Char) : isSpace (lowerChar c) = isSpace c := by
  by_cases h : 65 ≤ c.toNat ∧ c.toNat ≤ 90
  · have ht := toNat_lowerChar_of_upper c h
    have h1 : isSpace (lowerChar c) = false := by
      simp [isSpace, ht]
      omega
    have h2 : isSpace c = false := by
      simp [isSpace]
      omega
    rw [h1, h2]
  · rw [lowerChar_eq_self c h]

theorem head_dropWhile_false (p : Char → Bool) (l : List Char) (x : Char)
    (h : (l.dropWhile p).head? = some x) : p x = false := by
  induction l with
  | nil => simp [List.dropWhile] at h
  | cons a t ih =>
    by_cases ha : p a
    · exact ih (by simpa [List.dropWhile, ha] using h)
    · simp [List.dropWhile, ha] at h
      simp [← h, Bool.eq_false_iff, ha]

theorem dropWhile_eq_self_of_head (p : Char → Bool) (l : List Char)
    (h : ∀ x, l.head? = some x → p x = false) : l.dropWhile p = l := by
  cases l with
  | nil => rfl
  | cons a t => simp [List.dropWhile, h a rfl]

theorem dropWhile_append_singleton (p : Char → Bool) (a : Char) (ha : p a = false) :
    ∀ xs : List Char, List.dropWhile p (xs ++ [a]) = List.dropWhile p xs ++ [a] := by
  intro xs
  induction xs with
  | nil => simp [List.dropWhile, ha]
  | cons x t ih =>
    by_cases hx : p x
    · simpa [List.dropWhile, hx] using ih
    · simp [List.dropWhile, hx]

theorem noEdgeSpace_trimChars (l : List Char) : NoEdgeSpace (trimChars l) := by
  constructor
  · intro x hx
    unfold trimChars at hx
    cases hm : (l.dropWhile isSpace) with
    | nil => simp [hm] at hx
    | cons a t =>
      have ha : isSpace a = false := head_dropWhile_false isSpace l a (by simp [hm])
      rw [hm] at hx
      have : (a :: t).reverse = t.reverse ++ [a] := by simp
      rw [this, dropWhile_append_singleton isSpace a ha] at hx
      simp at hx
      rw [← hx]
      exact ha
  · intro x hx
    unfold trimChars at hx
    rw [List.reverse_reverse] at hx
    exact head_dropWhile_false isSpace _ x hx

theorem trimChars_eq_self (l : List Char) (h : NoEdgeSpace l) : trimChars l = l := by
  unfold trimChars
  rw [dropWhile_eq_self_of_head isSpace l h.1,
      dropWhile_eq_self_of_head isSpace l.reverse (by simpa using h.2),
      List.reverse_reverse]

theorem trimChars_trimChars (l : List Char) : trimChars (trimChars l) = trimChars l :=
  trimChars_eq_self _ (noEdgeSpace_trimChars l)

theorem noEdgeSpace_map_lower (l : List Char) (h : NoEdgeSpace l) :
    NoEdgeSpace (l.map lowerChar) := by
  constructor
  · intro x hx
    rw [List.head?_map] at hx
    cases hl : l.head? with
    | none => simp [hl] at hx
    | some a =>
      rw [hl] at hx
      simp at hx
      rw [← hx, isSpace_lowerChar]
      exact h.1 a hl
  · intro x hx
    rw [← List.map_reverse, List.head?_map] at hx
    cases hl : l.reverse.head? with
    | none => simp [hl] at hx
    | some a =>
      rw [hl] at hx
      simp at hx
      rw [← hx, isSpace_lowerChar]
      exact h.2 a hl

theorem pyStrip_pyStrip (s : String) : pyStrip (pyStrip s) = pyStrip s := by
  simp [pyStrip, trimChars_trimChars]

theorem pyLower_pyLower (s : String) : pyLower (pyLower s) = pyLower s := by
  simp [pyLower, List.map_map]
  exact congrArg String.mk
    (List.map_congr_left (fun a _ => by simp [Function.comp, lowerChar_lowerChar]))

theorem pyStrip_pyLower_pyStrip (s : String) :
    pyStrip (pyLower (pyStrip s)) = pyLower (pyStrip s) := by
  simp [pyStrip, pyLower]
  exact congrArg String.mk
    (trimChars_eq_self _ (noEdgeSpace_map_lower _ (noEdgeSpace_trimChars s.data)))

theorem isDigitChar_digitChar (d : Nat) : isDigitChar (digitChar d) = true := by
  unfold digitChar
  split <;> decide

theorem natDigitsAux_ne_nil (fuel n : Nat) : natDigitsAux fuel n ≠ [] := by
  cases fuel with
  | zero => simp [natDigitsAux]
  | succ f =>
    rw [natDigitsAux]
    split <;> simp

theorem natDigits_ne_nil (n : Nat) : natDigits n ≠ [] := natDigitsAux_ne_nil n n

theorem natDigitsAux_all_digit (fuel : Nat) :
    ∀ n, ∀ c ∈ natDigitsAux fuel n, isDigitChar c = true := by
  induction fuel with
  | zero => intro n c hc; simp [natDigitsAux] at hc; simp [hc, isDigitChar_digitChar]
  | succ f ih =>
    intro n c hc
    rw [natDigitsAux] at hc
    by_cases h : n < 10
    · rw [if_pos h] at hc
      simp at hc
      simp [hc, isDigitChar_digitChar]
    · rw [if_neg h] at hc
      rcases List.mem_append.mp hc with h1 | h1
      · exact ih (n / 10) c h1
      · simp at h1
        simp [h1, isDigitChar_digitChar]

theorem natDigits_all_digit (n : Nat) : ∀ c ∈ natDigits n, isDigitChar c = true :=
  natDigitsAux_all_digit n n

theorem isSpace_of_digit (c : Char) (h : isDigitChar c = true) : isSpace c = false := by
  simp [isDigitChar] at h
  simp [isSpace]
  omega

theorem takeWhile_append_stop (p : Char → Bool) (y : Char) (hy : p y = false) :
    ∀ (xs ys : List Char), (∀ c ∈ xs, p c = true) →
      (xs ++ y :: ys).takeWhile p = xs ∧ (xs ++ y :: ys).dropWhile p = y :: ys := by
  intro xs ys hxs
  induction xs with
  | nil => simp [List.takeWhile, List.dropWhile, hy]
  | cons x t ih =>
    have hx : p x = true := hxs x (by simp)
    have ht := ih (fun c hc => hxs c (by simp [hc]))
    simp [List.takeWhile, List.dropWhile, hx, ht.1, ht.2]

theorem parseNum_renderNum_isSome (q : ℚ) : (parseNum (renderNum q)).isSome = true := by
  have hdig := natDigits_all_digit q.num.natAbs
  have hnil := natDigits_ne_nil q.num.natAbs
  have hedge : NoEdgeSpace ((if q.num < 0 then ['-'] else []) ++
      natDigits q.num.natAbs ++ ['.', '0']) := by
    constructor
    · intro x hx
      by_cases hs : q.num < 0
      · simp [hs] at hx
        rw [← hx]
        decide
      · simp [hs] at hx
        cases hd : natDigits q.num.natAbs with
        | nil => exact absurd hd hnil
        | cons a t =>
          rw [hd] at hx
          simp at hx
          subst hx
          exact isSpace_of_digit a (hdig a (by simp [hd]))
    · intro x hx
      simp at hx
      rw [← hx]
      decide
  have hsplit := takeWhile_append_stop isDigitChar '.' (by decide)
      (natDigits q.num.natAbs) ['0'] hdig
  unfold parseNum renderNum parseNumChars
  simp only [String.mk]
  rw [trimChars_eq_self _ hedge]
  have h0 : ['0'].all isDigitChar = true := by decide
  by_cases hs : q.num < 0
  · simp only [hs, if_pos]
    simp only [List.append_assoc, List.singleton_append, List.cons_append,
      List.nil_append]
    rw [hsplit.1, hsplit.2]
    simp [hnil, h0]
  · simp only [hs, if_neg, Bool.false_eq_true, not_false_eq_true]
    simp only [List.append_assoc, List.nil_append]
    cases hd : natDigits q.num.natAbs with
    | nil => exact absurd hd hnil
    | cons a t =>
      have ha : isDigitChar a = true := hdig a (by simp [hd])
      have hm : a ≠ '-' := by
        intro he
        rw [he] at ha
        simp [isDigitChar] at ha
      have hp : a ≠ '+' := by
        intro he
        rw [he] at ha
        simp [isDigitChar] at ha
      rw [hd] at hsplit
      rw [List.cons_append] at hsplit
      split
      next heq => simp at heq; simp_all
      next heq => simp at heq; simp_all

theorem insertBy_perm {α : Type} (le : α → α → Bool) (a : α) (l : List α) :
    List.Perm (insertBy le a l) (a :: l) := by
  induction l with
  | nil => exact List.Perm.refl _
  | cons b t ih =>
    by_cases h : le a b
    · simp [insertBy, h]
    · simp only [insertBy, h, if_neg, Bool.false_eq_true, not_false_eq_true]
      exact (ih.cons b).trans (List.Perm.swap a b t)

theorem sortBy_perm {α : Type} (le : α → α → Bool) (l : List α) :
    List.Perm (sortBy le l) l := by
  induction l with
  | nil => exact List.Perm.refl _
  | cons a t ih => exact (insertBy_perm le a (sortBy le t)).trans (ih.cons a)

/-- Splitting a filtered sum along a further boolean predicate. -/
theorem vsum_cons (c : Cell) (l : List Cell) :
    vsum (c :: l) = (cellNum c).getD 0 + vsum l := by
  cases hv : cellNum c <;> simp [vsum, List.filterMap_cons, hv]

/-- Splitting a filtered sum along a further boolean predicate. -/
theorem vsum_filter_split {α : Type} (val : α → Cell) (p g : α → Bool) :
    ∀ rows : List α,
      vsum ((rows.filter p).map val) =
        vsum ((rows.filter fun r => p r && g r).map val) +
        vsum ((rows.filter fun r => p r && !g r).map val) := by
  intro rows
  induction rows with
  | nil => simp [vsum]
  | cons a t ih =>
    by_cases hp : p a <;> by_cases hg : g a <;>
      simp [List.filter_cons, hp, hg, vsum_cons, ih] <;> ring

theorem fiber_partition {α : Type} (key val : α → Cell) :
    ∀ (ks : List String), ∀ rows : List α, ks.Nodup →
      (∀ r ∈ rows, ∀ s, cellStr (key r) = some s → s ∈ ks) →
      (ks.map (fiberSum rows key val)).sum =
        vsum ((rows.filter fun r => (cellStr (key r)).isSome).map val) := by
  intro ks
  induction ks with
  | nil =>
    intro rows _ hcov
    have hnilf : (rows.filter fun r => (cellStr (key r)).isSome) = [] := by
      rw [List.filter_eq_nil_iff]
      intro r hr
      cases hc : cellStr (key r) with
      | none => simp
      | some s => exact absurd (hcov r hr s hc) (List.not_mem_nil s)
    simp [hnilf, vsum]
  | cons k ks ih =>
    intro rows hnd hcov
    have hk : k ∉ ks := (List.nodup_cons.mp hnd).1
    have hnd2 : ks.Nodup := (List.nodup_cons.mp hnd).2
    set rows2 := rows.filter (fun r => !(key r == Cell.str k)) with hrows2
    have hfib : ∀ k2 ∈ ks, fiberSum rows key val k2 = fiberSum rows2 key val k2 := by
      intro k2 hk2
      have hne : k2 ≠ k := fun he => hk (he ▸ hk2)
      unfold fiberSum
      rw [hrows2, List.filter_filter]
      congr 1
      congr 1
      apply List.filter_congr
      intro r _
      by_cases he : key r == Cell.str k2
      · have : key r = Cell.str k2 := by simpa using he
        simp [he, this, Cell.str.injEq, hne]
      · simp [he]
    have hmap : ks.map (fiberSum rows key val) = ks.map (fiberSum rows2 key val) :=
      List.map_congr_left hfib
    have hcov2 : ∀ r ∈ rows2, ∀ s, cellStr (key r) = some s → s ∈ ks := by
      intro r hr s hc
      have hr0 := List.mem_filter.mp hr
      have hs := hcov r hr0.1 s hc
      rcases List.mem_cons.mp hs with he | hm
      · exfalso
        have : key r = Cell.str s := by
          cases hkr : key r <;> simp [cellStr, hkr] at hc <;> simp [hkr, hc]
        rw [he] at this
        rw [this] at hr0
        simp at hr0
      · exact hm
    have hsplit := vsum_filter_split val (fun r => (cellStr (key r)).isSome)
      (fun r => key r == Cell.str k) rows
    have hfirst : (rows.filter fun r =>
        (cellStr (key r)).isSome && (key r == Cell.str k)) =
        (rows.filter fun r => key r == Cell.str k) := by
      apply List.filter_congr
      intro r _
      by_cases he : key r == Cell.str k
      · have : key r = Cell.str k := by simpa using he
        simp [he, this, cellStr]
      · simp [he]
    have hsecond : (rows.filter fun r =>
        (cellStr (key r)).isSome && !(key r == Cell.str k)) =
        rows2.filter (fun r => (cellStr (key r)).isSome) := by
      rw [hrows2, List.filter_filter]
    simp only [List.map_cons, List.sum_cons]
    rw [hmap, ih rows2 hnd2 hcov2, hsplit, hfirst, hsecond]
    rfl

/-- Summing all group sums of `groupSum` gives the value total over the
rows whose grouping key is a (non-null) string. -/
theorem groupSum_total {α : Type} (rows : List α) (key val : α → Cell) :
    ((groupSum rows key val).map Prod.snd).sum =
      vsum ((rows.filter fun r => (cellStr (key r)).isSome).map val) := by
  unfold groupSum
  rw [List.map_map]
  have hred : (Prod.snd ∘ fun k => (k, fiberSum rows key val k)) =
      fun k => fiberSum rows key val k := rfl
  rw [hred]
  have hperm : List.Perm (groupKeys rows key)
      ((rows.filterMap fun r => cellStr (key r)).dedup) := sortBy_perm _ _
  rw [(hperm.map (fun k => fiberSum rows key val k)).sum_eq]
  apply fiber_partition
  · exact List.nodup_dedup _
  · intro r hr s hc
    rw [List.mem_dedup, List.mem_filterMap]
    exact ⟨r, hr, hc⟩

/-! ## Filter characterizations -/

theorem filter_and_comm {α : Type} (l : List α) (p q : α → Bool) :
    (l.filter q).filter p = l.filter fun a => q a && p a := by
  rw [List.filter_filter]
  exact List.filter_congr fun a _ => Bool.and_comm _ _

/-- The sequential conditional filters of vc_dashboard.py compose into one
filter by the conjunction of all present criteria. -/
theorem vc_filtered_eq (df : List Vc.VcRow) (c : Vc.Criteria) :
    Vc.filtered_df df c = df.filter (Vc.rowPred c) := by
  obtain ⟨cm, cs, ck, lo, hi⟩ := c
  simp only [Vc.filtered_df, Vc.rowPred]
  cases cm <;> cases cs <;> cases ck <;>
    simp only [filter_and_comm, Vc.matchOpt, Bool.true_and] <;>
    exact List.filter_congr fun r _ => by simp [Vc.rowPred, Vc.matchOpt]

theorem app_filtered_eq (df : List App.CRow) (c : App.Criteria) :
    App.filtered_df df c = df.filter (App.rowPred c) := rfl

/-- Insertion into a list whose head the new element precedes. -/
theorem insertBy_of_le_head {α : Type} (le : α → α → Bool) (a : α) (l : List α)
    (h : ∀ b, l.head? = some b → le a b = true) : insertBy le a l = a :: l := by
  cases l with
  | nil => rfl
  | cons b t => simp [insertBy, h b rfl]

/-- A stable sort leaves a list alone when every comparison holds. -/
theorem sortBy_eq_self_of_all {α : Type} (le : α → α → Bool) :
    ∀ l : List α, (∀ a ∈ l, ∀ b ∈ l, le a b = true) → sortBy le l = l := by
  intro l
  induction l with
  | nil => intro _; rfl
  | cons a t ih =>
    intro h
    have ht : sortBy le t = t :=
      ih fun x hx y hy => h x (by simp [hx]) y (by simp [hy])
    rw [sortBy, ht]
    apply insertBy_of_le_head
    intro b hb
    have hbt : b ∈ t := by
      cases t with
      | nil => simp at hb
      | cons x r => simp at hb; simp [hb]
    exact h a (by simp) b (by simp [hbt])

/-! ## Claims -/

/-- C1: for every dataset and criteria, both filter engines return a
sublist of the input (no fabricated rows, order preserved) in which every
row satisfies every predicate present in the criteria: market, country and
status membership and the inclusive funding range in app.py; the optional
market, status and country criteria and the inclusive founded-year range in
vc_dashboard.py. -/
theorem c1_filter_subset_order_sound :
    ∀ (d : List App.CRow) (c : App.Criteria) (e : List Vc.VcRow) (c2 : Vc.Criteria),
      (App.filtered_df d c).Sublist d ∧
      (App.filtered_df d c).all (App.rowPred c) = true ∧
      (Vc.filtered_df e c2).Sublist e ∧
      (Vc.filtered_df e c2).all (Vc.rowPred c2) = true := by
  intro d c e c2
  refine ⟨List.filter_sublist d, ?_, ?_, ?_⟩
  · rw [List.all_eq_true]
    intro r hr
    exact (List.mem_filter.mp hr).2
  · rw [vc_filtered_eq]
    exact List.filter_sublist e
  · rw [vc_filtered_eq, List.all_eq_true]
    intro r hr
    exact (List.mem_filter.mp hr).2

/-- C6 counterexample: with all three selectboxes at the absent sentinel
and the widest conceivable founded-year range, a row with null
founded_year is still dropped, so not every criterion dimension is
optional and an absent criterion does not match all rows. -/
theorem c6_counterexample_null_year_dropped :
    Vc.filtered_df [vcNullYearRow]
      { market := none, status := none, country := none,
        yearLo := -100000, yearHi := 100000 } ≠ [vcNullYearRow] := by
  decide

/-- C6 amended: in vc_dashboard.py the three categorical criteria are
optional (the sentinel matches all rows) and compare by equality; the
founded-year criterion is always applied with inclusive bounds and rows
with null founded_year match no range; in app.py all four criteria are
always applied, with set membership for the categorical ones and an
inclusive funding range; all present criteria combine by logical AND. -/
theorem c6_amended_criteria_semantics :
    (∀ (d : List Vc.VcRow) (c : Vc.Criteria) (r : Vc.VcRow),
        r ∈ Vc.filtered_df d c ↔ r ∈ d ∧ Vc.rowPred c r = true) ∧
    (∀ (d : List Vc.VcRow) (lo hi : ℤ),
        Vc.filtered_df d
          { market := none, status := none, country := none,
            yearLo := lo, yearHi := hi } =
          d.filter fun r => Vc.yearBetween r.founded_year lo hi) ∧
    (∀ (d : List App.CRow) (c : App.Criteria) (r : App.CRow),
        r ∈ App.filtered_df d c ↔ r ∈ d ∧ App.rowPred c r = true) := by
  refine ⟨?_, ?_, ?_⟩
  · intro d c r
    rw [vc_filtered_eq]
    simp [List.mem_filter]
  · intro d lo hi
    rw [vc_filtered_eq]
    exact List.filter_congr fun r _ => by simp [Vc.rowPred, Vc.matchOpt]
  · intro d c r
    simp [App.filtered_df, List.mem_filter]

/-- C3 counterexample: grouping by region drops the null-key row, so the
null key is not retained as its own group and the sum of all group sums
(here 0) does not reproduce the total funding of the dataset (here 5). -/
theorem c3_counterexample_null_key_dropped :
    ((groupSum [appNullRegionRow] (fun r => r.region)
        (fun r => r.funding_total_usd)).map Prod.snd).sum ≠
      vsum ([appNullRegionRow].map fun r => r.funding_total_usd) := by
  have h1 : groupSum [appNullRegionRow] (fun r => r.region)
      (fun r => r.funding_total_usd) = [] := by decide
  rw [h1]
  simp [vsum, appNullRegionRow, cellNum]

/-- C3 amended: `groupSum` partitions the dataset by the non-null keys
only (pandas `groupby` drops rows with a NaN key), so summing all group
sums reproduces the funding total of the rows whose key is present — and
hence the full total exactly when every key is non-null. -/
theorem c3_amended_group_sums_partition :
    (∀ (rows : List App.CRow) (key val : App.CRow → Cell),
        ((groupSum rows key val).map Prod.snd).sum =
          vsum ((rows.filter fun r => (cellStr (key r)).isSome).map val)) ∧
    (∀ (rows : List Vc.VcRow) (key val : Vc.VcRow → Cell),
        ((groupSum rows key val).map Prod.snd).sum =
          vsum ((rows.filter fun r => (cellStr (key r)).isSome).map val)) :=
  ⟨fun rows key val => groupSum_total rows key val,
   fun rows key val => groupSum_total rows key val⟩

/-- C8 counterexample: on the empty filtered dataset the per-round-type
aggregation of vc_dashboard.py returns one (zero) entry per round type,
not an empty aggregation result. -/
theorem c8_counterexample_round_funding_nonempty :
    Vc.round_funding [] ≠ [] := by
  intro h
  have hp := sortBy_perm (fun a b : String × ℚ => decide (b.2 ≤ a.2))
    (Vc.roundTypes.enum.map fun p => (p.2, Vc.roundColSum [] p.1))
  have hl : (Vc.round_funding []).length = 10 := by
    rw [Vc.round_funding, hp.length_eq]
    simp [Vc.roundTypes]
  rw [h] at hl
  simp at hl

/-- C8 amended: on a dataset with zero rows every group-by aggregation
(`groupSum`, `groupMean`, `valueCounts`) and every top-N ranking returns
an empty result, and the per-round-type column sum returns a zero total
for each round type — none of them raising an error. -/
theorem c8_amended_empty_aggregations :
    (∀ key val : App.CRow → Cell, groupSum ([] : List App.CRow) key val = []) ∧
    (∀ key val : App.CRow → Cell, groupMean ([] : List App.CRow) key val = []) ∧
    (∀ key : App.CRow → Cell, valueCounts ([] : List App.CRow) key = []) ∧
    (∀ n : ℕ, topN n ([] : List (String × ℚ)) = []) ∧
    Vc.round_funding [] = Vc.roundTypes.map (fun t => (t, (0 : ℚ))) := by
  refine ⟨?_, ?_, ?_, ?_, ?_⟩
  · intro key val
    simp [groupSum, groupKeys, sortBy]
  · intro key val
    simp [groupMean, groupKeys, sortBy]
  · intro key
    simp [valueCounts, groupKeys, sortBy]
  · intro n
    simp [topN, sortBy]
  · decide

/-- C10 counterexample: a whitespace-only category token passes the `if i`
truthiness test, is stripped to the empty string, and is retained, so the
normalized category_list is not guaranteed to contain only non-empty
tokens. -/
theorem c10_counterexample_whitespace_token :
    App.catClean (Cell.str "a| |b") = Except.ok (Cell.list ["a", "", "b"]) ∧
    (["a", "", "b"].any fun t => t == "") = true := by
  constructor <;> decide

/-- C10 amended: a null category_list normalizes to the empty sequence
(not null), and every resulting token is trimmed and lower-cased (a fixed
point of both strip and lower); tokens empty before stripping are dropped,
but whitespace-only tokens are retained as empty strings. -/
theorem c10_amended_category_tokens :
    App.catClean Cell.null = Except.ok (Cell.list []) ∧
    (∀ s l, App.catClean (Cell.str s) = Except.ok (Cell.list l) →
        ∀ t ∈ l, pyStrip t = t ∧ pyLower t = t) := by
  constructor
  · decide
  · intro s l h t ht
    have hl : l = (pySplit s '|').filterMap fun i =>
        if i = "" then none else some (pyLower (pyStrip i)) := by
      simp [App.catClean, fillna] at h
      exact h.symm
    rw [hl] at ht
    rcases List.mem_filterMap.mp ht with ⟨i, _, hi⟩
    by_cases hie : i = ""
    · simp [hie] at hi
    · rw [if_neg hie] at hi
      have : t = pyLower (pyStrip i) := by
        injection hi
        simp_all
      rw [this]
      exact ⟨pyStrip_pyLower_pyStrip i, pyLower_pyLower (pyStrip i)⟩

/-- C10 witness: the amended theorem applied to the concrete input
`"Apps| Games "` whose tokens are `apps` and `games`. -/
theorem c10_amended_witness :
    pyStrip "games" = "games" ∧ pyLower "games" = "games" :=
  c10_amended_category_tokens.2 "Apps| Games " ["apps", "games"] (by decide)
    "games" (by decide)

/-! ## Re-application of the app.py cleaning block (claim C4) -/

theorem catClean_ok_list (c d : Cell) (h : App.catClean c = Except.ok d) :
    ∃ l, d = Cell.list l := by
  unfold App.catClean at h
  split at h
  · injection h with h2
    exact ⟨_, h2.symm⟩
  · exact absurd h (by simp)

/-- Shape of a row kept by `cleanRow`: non-null name, positive numeric
funding, and a list-valued category cell. -/
theorem cleanRow_ok_some_shape (r r2 : App.CRow)
    (h : App.cleanRow r = Except.ok (some r2)) :
    r2.name.isNull = false ∧
    (∃ q, r2.funding_total_usd = Cell.num q ∧ 0 < q) ∧
    (∃ l, r2.category_list = Cell.list l) := by
  unfold App.cleanRow at h
  split at h
  · simp at h
  · next hguard =>
    simp only [Bool.or_eq_true, not_or] at hguard
    split at h
    · next q heq =>
      split at h
      · next hq =>
        split at h
        · simp at h
        · next cat hcat =>
          simp only [Except.ok.injEq, Option.some.injEq] at h
          obtain ⟨l, hl⟩ := catClean_ok_list _ _ hcat
          subst h
          refine ⟨?_, ⟨q, rfl, hq⟩, ⟨l, by simpa using hl⟩⟩
          simpa using hguard.1.1
      · simp at h
    · simp at h

theorem normalizeApp_ok_shape (x y : List App.CRow)
    (h : App.normalizeApp x = Except.ok y) :
    ∀ r ∈ y, r.name.isNull = false ∧
      (∃ q, r.funding_total_usd = Cell.num q ∧ 0 < q) ∧
      (∃ l, r.category_list = Cell.list l) := by
  induction x generalizing y with
  | nil =>
    simp only [App.normalizeApp, Except.ok.injEq] at h
    subst h
    simp
  | cons a t ih =>
    simp only [App.normalizeApp] at h
    cases hc : App.cleanRow a with
    | error e => rw [hc] at h; simp at h
    | ok o =>
      rw [hc] at h
      cases ht : App.normalizeApp t with
      | error e => rw [ht] at h; simp at h
      | ok t2 =>
        rw [ht] at h
        simp only [Except.ok.injEq] at h
        cases o with
        | none =>
          subst h
          exact ih t2 ht
        | some r2 =>
          subst h
          intro r hr
          rcases List.mem_cons.mp hr with he | hm
          · subst he
            exact cleanRow_ok_some_shape a r hc
          · exact ih t2 ht r hm

theorem normalizeApp_length_le (x : List App.CRow) :
    ∀ y, App.normalizeApp x = Except.ok y → y.length ≤ x.length := by
  induction x with
  | nil =>
    intro y h
    simp only [App.normalizeApp, Except.ok.injEq] at h
    subst h
    simp
  | cons a t ih =>
    intro y h
    simp only [App.normalizeApp] at h
    cases hc : App.cleanRow a with
    | error e => rw [hc] at h; simp at h
    | ok o =>
      rw [hc] at h
      cases ht : App.normalizeApp t with
      | error e => rw [ht] at h; simp at h
      | ok t2 =>
        rw [ht] at h
        simp only [Except.ok.injEq] at h
        cases o with
        | none =>
          subst h
          exact Nat.le_succ_of_le (ih t2 ht)
        | some r2 =>
          subst h
          simpa using Nat.succ_le_succ (ih t2 ht)

/-- C4 amended: the cleaning block is not idempotent.  It reproduces the
empty output, but whenever it yields a non-empty dataset, re-applying it
to its own output cannot return that output: every surviving row reaches
the category step with an already-split list cell and raises a TypeError
(or, if all rows are dropped first, the result is shorter). -/
theorem c4_amended_normalize_not_idempotent :
    App.normalizeApp [] = Except.ok [] ∧
    ∀ x y, App.normalizeApp x = Except.ok y → y ≠ [] →
      App.normalizeApp y ≠ Except.ok y := by
  refine ⟨rfl, ?_⟩
  intro x y hx hy hcontra
  cases y with
  | nil => exact hy rfl
  | cons r rest =>
    obtain ⟨hname, ⟨q, hq, hqpos⟩, ⟨l, hcat⟩⟩ :=
      normalizeApp_ok_shape x _ hx r (by simp)
    by_cases hm : r.market.isNull
    · have hclean : App.cleanRow r = Except.ok none := by
        unfold App.cleanRow
        rw [if_pos (by simp [hm])]
      simp only [App.normalizeApp, hclean] at hcontra
      cases hrest : App.normalizeApp rest with
      | error e => rw [hrest] at hcontra; simp at hcontra
      | ok t =>
        rw [hrest] at hcontra
        simp only [Except.ok.injEq] at hcontra
        have hlen := normalizeApp_length_le rest t hrest
        rw [hcontra] at hlen
        simp only [List.length_cons] at hlen
        omega
    · have hmf : r.market.isNull = false := by simpa using hm
      have hff : r.funding_total_usd.isNull = false := by rw [hq]; rfl
      have hclean : App.cleanRow r = Except.error () := by
        unfold App.cleanRow
        rw [if_neg (by simp [hname, hff, hmf])]
        rw [hq]
        simp only [stripDollarComma, toNumeric]
        rw [if_pos hqpos]
        rw [hcat]
        simp [App.catClean, fillna]
      simp only [App.normalizeApp, hclean] at hcontra
      exact absurd hcontra (by simp)

/-- C4 counterexample: the cleaning block applied to its own output is not
the identity on it — the second application aborts with a TypeError at the
category step instead of reproducing the dataset. -/
theorem c4_counterexample_second_pass :
    App.normalizeApp [c4RawRow] = Except.ok [c4CleanRow] ∧
    App.normalizeApp [c4CleanRow] ≠ App.normalizeApp [c4RawRow] := by
  constructor <;> decide

/-- C4 witness: the amended theorem applied at the concrete one-row
table. -/
theorem c4_amended_witness :
    App.normalizeApp [c4CleanRow] ≠ Except.ok [c4CleanRow] :=
  c4_amended_normalize_not_idempotent.2 [c4RawRow] [c4CleanRow]
    (by decide) (by decide)

theorem astypeStr_isStr (c : Cell) : (astypeStr c).isStr = true := by
  cases c <;> rfl

theorem cellStrMap_isStr (f : String → String) (c : Cell) (h : c.isStr = true) :
    (cellStrMap f c).isStr = true := by
  cases c <;> simp_all [cellStrMap, Cell.isStr]

theorem cleanRow_good (r r2 : App.CRow)
    (hm : (r.market.isNull || r.market.isStr) = true)
    (h : App.cleanRow r = Except.ok (some r2)) :
    App.goodRecord r2 = true := by
  unfold App.cleanRow at h
  split at h
  · simp at h
  · next hguard =>
    simp only [Bool.or_eq_true, not_or] at hguard
    split at h
    · next q heq =>
      split at h
      · next hq =>
        split at h
        · simp at h
        · next cat hcat =>
          simp only [Except.ok.injEq, Option.some.injEq] at h
          subst h
          have hname : r.name.isNull = false := by simpa using hguard.1.1
          have hmn : r.market.isNull = false := by simpa using hguard.2
          have hms : r.market.isStr = true := by
            have hm2 : r.market.isNull = true ∨ r.market.isStr = true := by
              simpa using hm
            rcases hm2 with h1 | h1
            · rw [h1] at hmn
              exact absurd hmn (by simp)
            · exact h1
          simp [App.goodRecord, hname, fundingPos, hq, cellStrMap_isStr, hms,
            astypeStr_isStr]
      · simp at h
    · simp at h

theorem normalizeApp_good (x : List App.CRow)
    (hm : ∀ r ∈ x, (r.market.isNull || r.market.isStr) = true) :
    ∀ y, App.normalizeApp x = Except.ok y → y.all App.goodRecord = true := by
  induction x with
  | nil =>
    intro y h
    simp only [App.normalizeApp, Except.ok.injEq] at h
    subst h
    rfl
  | cons a t ih =>
    intro y h
    simp only [App.normalizeApp] at h
    cases hc : App.cleanRow a with
    | error e => rw [hc] at h; simp at h
    | ok o =>
      rw [hc] at h
      cases ht : App.normalizeApp t with
      | error e => rw [ht] at h; simp at h
      | ok t2 =>
        rw [ht] at h
        simp only [Except.ok.injEq] at h
        have ht2 : t2.all App.goodRecord = true :=
          ih (fun r hr => hm r (by simp [hr])) t2 ht
        cases o with
        | none =>
          subst h
          exact ht2
        | some r2 =>
          subst h
          simp only [List.all_cons, Bool.and_eq_true]
          exact ⟨cleanRow_good a r2 (hm a (by simp)) hc, ht2⟩

theorem readCsv_market_shape (t : App.RawTable)
    (hm : colIsNumeric (t.rows.map fun r => r.market) = false) :
    ∀ r ∈ App.readCsv t, (r.market.isNull || r.market.isStr) = true := by
  intro r hr
  unfold App.readCsv at hr
  simp only [List.mem_map] at hr
  obtain ⟨raw, _, heq⟩ := hr
  subst heq
  simp only [hm]
  cases raw.market <;> rfl

theorem processTable_ok (t : App.RawTable) (y : List App.CRow)
    (h : App.processTable t = Except.ok y) :
    App.normalizeApp (App.readCsv t) = Except.ok y := by
  unfold App.processTable at h
  split at h
  next rows heq =>
    rw [heq]
    simp only [] at h
    split at h
    · injection h with h2
      rw [h2]
    · exact absurd h (by simp)
  next e heq =>
    exfalso
    simp only [] at h
    split at h
    · exact absurd h (by simp)
    · exact absurd h (by simp)

theorem tryEncodings_mem (env : App.LoadEnv) (t : App.RawTable)
    (h : App.tryEncodings env = some t) :
    env.readUtf8 = some t ∨ env.readLatin1 = some t ∨ env.readIso = some t := by
  unfold App.tryEncodings at h
  cases hu : env.readUtf8 with
  | some u =>
    rw [hu] at h
    simp only [Option.some_orElse] at h
    exact Or.inl h
  | none =>
    rw [hu] at h
    simp only [Option.none_orElse] at h
    cases hl : env.readLatin1 with
    | some u =>
      rw [hl] at h
      simp only [Option.some_orElse] at h
      exact Or.inr (Or.inl h)
    | none =>
      rw [hl] at h
      simp only [Option.none_orElse] at h
      exact Or.inr (Or.inr h)

/-- C2 amended: every dataset `load_data` of app.py returns satisfies the
invariant (non-null name, positive numeric funding, string market, country
and status) provided the raw market column is textual, which holds for the
real data; the loader of vc_dashboard.py does not establish the invariant
(see the counterexample). -/
theorem c2_amended_normalization_invariant :
    ∀ (env : App.LoadEnv) (y : List App.CRow),
      App.loadInner env = Except.ok y →
      (∀ t ∈ [env.readUtf8, env.readLatin1, env.readIso, env.readLossy].filterMap id,
          colIsNumeric (t.rows.map fun r => r.market) = false) →
      y.all App.goodRecord = true := by
  intro env y h hm
  unfold App.loadInner at h
  split at h
  · cases he : App.tryEncodings env with
    | some t =>
      rw [he] at h
      have hmem := tryEncodings_mem env t he
      have hmt : colIsNumeric (t.rows.map fun r => r.market) = false := by
        apply hm
        rw [List.mem_filterMap]
        rcases hmem with h1 | h1 | h1
        · exact ⟨env.readUtf8, by simp, by simp [h1]⟩
        · exact ⟨env.readLatin1, by simp, by simp [h1]⟩
        · exact ⟨env.readIso, by simp, by simp [h1]⟩
      exact normalizeApp_good _ (readCsv_market_shape t hmt) y (processTable_ok t y h)
    | none =>
      rw [he] at h
      cases hl : env.readLossy with
      | some t =>
        rw [hl] at h
        have hmt : colIsNumeric (t.rows.map fun r => r.market) = false := by
          apply hm
          rw [List.mem_filterMap]
          exact ⟨env.readLossy, by simp, by simp [hl]⟩
        exact normalizeApp_good _ (readCsv_market_shape t hmt) y (processTable_ok t y h)
      | none =>
        rw [hl] at h
        simp at h
  · simp at h

/-- C2 counterexample: the vc_dashboard.py loader returns a dataset whose
first record has a null market — it drops no rows and fills no sentinel,
so the claimed invariant does not hold for every dataset the
loader/normalizer returns. -/
theorem c2_counterexample_vc_null_market :
    Vc.load_data [c2VcRawA, c2VcRawB] = Except.ok [c2VcOutA, c2VcOutB] ∧
    c2VcOutA.market = Cell.null := by
  constructor <;> decide

/-- C2 witness: the amended theorem applied at the concrete one-row
environment. -/
theorem c2_amended_witness :
    App.loadInner c2Env = Except.ok [c2OutRow] ∧
    [c2OutRow].all App.goodRecord = true :=
  ⟨by decide,
   c2_amended_normalization_invariant c2Env [c2OutRow] (by decide) (by decide)⟩

/-- C9: `load_data` of app.py is total at its interface: whenever the
inner loader raises (missing file, undecodable file, missing columns, or a
cleaning TypeError), the `except Exception` wrapper surfaces the error and
returns the empty dataframe, and on success it returns the loaded rows
with no error. -/
theorem c9_load_data_total :
    ∀ env : App.LoadEnv,
      (∀ e, App.loadInner env = Except.error e → App.load_data env = (some e, [])) ∧
      (∀ y, App.loadInner env = Except.ok y → App.load_data env = (none, y)) := by
  intro env
  constructor
  · intro e he
    simp [App.load_data, he]
  · intro y hy
    simp [App.load_data, hy]

/-- C9 witness: the theorem applied at an environment with a missing file
and at one that loads a row. -/
theorem c9_load_data_total_witness :
    App.load_data
      { fileExists := false, readUtf8 := none, readLatin1 := none,
        readIso := none, readLossy := none } =
      (some App.LoadErr.fileNotFound, []) ∧
    App.load_data c2Env = (none, [c2OutRow]) :=
  ⟨(c9_load_data_total _).1 App.LoadErr.fileNotFound (by decide),
   (c9_load_data_total c2Env).2 [c2OutRow] (by decide)⟩

/-- C5: the loader of app.py fails with the FileNotFoundError kind when
the file is missing; when no encoding of the fixed list utf-8, latin1,
iso-8859-1 decodes the file it first attempts the lossy latin1 fallback
read, and only if that read also raises does it give up with the
decode-error kind. -/
theorem c5_loader_failure_modes :
    ∀ env : App.LoadEnv,
      (env.fileExists = false →
        App.loadInner env = Except.error App.LoadErr.fileNotFound) ∧
      (env.fileExists = true → App.tryEncodings env = none →
        (∀ t, env.readLossy = some t → App.loadInner env = App.processTable t) ∧
        (env.readLossy = none →
          App.loadInner env = Except.error App.LoadErr.decodeError)) := by
  intro env
  constructor
  · intro hf
    simp [App.loadInner, hf]
  · intro hf he
    constructor
    · intro t ht
      simp [App.loadInner, hf, he, ht]
    · intro ht
      simp [App.loadInner, hf, he, ht]

/-- C5 witness: the theorem applied at a missing-file environment and at
an environment where every strict decode and the lossy fallback fail. -/
theorem c5_loader_failure_modes_witness :
    App.loadInner
      { fileExists := false, readUtf8 := none, readLatin1 := none,
        readIso := none, readLossy := none } =
      Except.error App.LoadErr.fileNotFound ∧
    App.loadInner
      { fileExists := true, readUtf8 := none, readLatin1 := none,
        readIso := none, readLossy := none } =
      Except.error App.LoadErr.decodeError :=
  ⟨(c5_loader_failure_modes _).1 rfl,
   ((c5_loader_failure_modes _).2 rfl (by decide)).2 rfl⟩

/-- C7 amended: exporting a filtered dataset writes one text row per
record, but re-loading the exported text through the vc_dashboard loader
never returns a dataset: the cleaned funding column re-reads under a
numeric dtype and the `.str` cleaning chain raises an AttributeError. -/
theorem c7_amended_roundtrip_fails :
    ∀ df : List Vc.VcRow, df ≠ [] →
      (∀ r ∈ df, (r.funding_total_usd.isNull || r.funding_total_usd.isNum) = true) →
      (Vc.exportCsv df).length = df.length ∧
      Vc.load_data (Vc.exportCsv df) = Except.error Vc.strAccessorError := by
  intro df hne hshape
  have hlen : (Vc.exportCsv df).length = df.length := by
    simp [Vc.exportCsv]
  refine ⟨hlen, ?_⟩
  have hnum : colIsNumeric ((Vc.exportCsv df).map fun r => r.funding_total_usd) = true := by
    unfold colIsNumeric
    rw [Bool.and_eq_true]
    constructor
    · cases df with
      | nil => exact absurd rfl hne
      | cons a t => simp [Vc.exportCsv]
    · rw [List.all_eq_true]
      intro c hc
      rw [List.mem_map] at hc
      obtain ⟨raw, hraw, hcell⟩ := hc
      rw [Vc.exportCsv, List.mem_map] at hraw
      obtain ⟨r, hr, hrow⟩ := hraw
      have hfund := hshape r hr
      subst hcell
      subst hrow
      simp only []
      cases hf : r.funding_total_usd with
      | null => rfl
      | str s => rw [hf] at hfund; exact absurd hfund (by simp [Cell.isNull, Cell.isNum])
      | num q =>
        simp only [Vc.exportCell]
        have := parseNum_renderNum_isSome q
        simpa [isNumericLiteral, parseNum] using this
      | list l => rw [hf] at hfund; exact absurd hfund (by simp [Cell.isNull, Cell.isNum])
  unfold Vc.load_data
  rw [if_pos hnum]

/-- C7 counterexample: re-loading the export of a one-row filtered dataset
raises an AttributeError instead of yielding a dataset with the same row
count and funding values. -/
theorem c7_counterexample_reload_raises :
    Vc.load_data (Vc.exportCsv [c7Row]) = Except.error Vc.strAccessorError := by
  decide

/-- C7 witness: the amended theorem applied at the concrete one-row
dataset. -/
theorem c7_amended_witness :
    (Vc.exportCsv [c7Row]).length = [c7Row].length ∧
    Vc.load_data (Vc.exportCsv [c7Row]) = Except.error Vc.strAccessorError :=
  c7_amended_roundtrip_fails [c7Row] (by decide) (by decide)

